import Mathlib

/-!
A verification development for the core of the OpenRC service-manager
library, as declared in `src/rc.h`.  The repository ships only the header;
every operation below is therefore modelled from the specification's
description of the corresponding `rc_*` function, keeping the header's
names.  Service names are strings; the on-disk state store, runlevel
directories and softlevel file are modelled as explicit finite structures,
and the dependency engine as a deterministic topological sort with
lexicographic cycle breaking.
-/

/-! ## Byte-wise lexicographic string comparison (C locale `strcmp`) -/

/-- Modelled from the spec: lists are kept "sorted in the C locale"
(`rc_strlist_addsortc`), i.e. by byte-wise lexicographic comparison,
here over the character codes of the string. -/
def lexLtChars : List Char → List Char → Bool
  | [], [] => false
  | [], _ :: _ => true
  | _ :: _, [] => false
  | a :: as, b :: bs =>
    if a.toNat < b.toNat then true
    else if b.toNat < a.toNat then false
    else lexLtChars as bs

/-- Strict lexicographic order on strings, via their character lists. -/
def strLtb (a b : String) : Bool := lexLtChars a.data b.data

/-- Reflexive lexicographic order on strings: `a` does not come after `b`. -/
def strLeb (a b : String) : Bool := ! strLtb b a

/-- The ordering relation used for directory listings. -/
def strLe (a b : String) : Prop := strLeb a b = true

instance : DecidableRel strLe := fun a b =>
  inferInstanceAs (Decidable (strLeb a b = true))

/-! ## Service states (`rc_service_state_t`) -/

/-- States a service can be in, exactly as enumerated in `rc.h`. -/
inductive rc_service_state_t
  | rc_service_started
  | rc_service_stopped
  | rc_service_starting
  | rc_service_stopping
  | rc_service_inactive
  | rc_service_wasinactive
  | rc_service_coldplugged
  | rc_service_failed
  | rc_service_scheduled
  | rc_service_crashed
deriving DecidableEq, Fintype

open rc_service_state_t

/-- Modelled from the spec: the primary states are
stopped/started/starting/stopping/inactive; they are mutually exclusive
at the storage level. -/
def isPrimaryState : rc_service_state_t → Bool
  | rc_service_started | rc_service_stopped | rc_service_starting
  | rc_service_stopping | rc_service_inactive => true
  | _ => false

/-- Modelled from the spec: `coldplugged`, `failed`, `scheduled` and
`was-inactive` are flags that coexist with a primary state. -/
def isFlagState : rc_service_state_t → Bool
  | rc_service_wasinactive | rc_service_coldplugged
  | rc_service_failed | rc_service_scheduled => true
  | _ => false

/-! ## The state store

Modelled from the spec: the state store persists each service's state as
marker files under `/var/lib/rc/<state>/<name>`; `stopped` is represented
by the absence of any primary marker.  `services` is the universe of
known services (the init.d listing); `markers` the set of marker files
present. -/

structure RCStateStore where
  services : List String
  markers : List (String × rc_service_state_t)
deriving DecidableEq

/-- Does this marker file record a primary state of service `s`? -/
def primaryMarkerP (s : String) (m : String × rc_service_state_t) : Bool :=
  decide (m.1 = s) && isPrimaryState m.2

/-- The primary-state marker files present for a service. -/
def primaryMarkers (st : RCStateStore) (s : String) : List rc_service_state_t :=
  (st.markers.filter (primaryMarkerP s)).map Prod.snd

/-- Modelled from the spec (§4.C `get_state`): the primary state is the
single non-flag marker present; if none is present, `stopped`. -/
def primaryStateOf (st : RCStateStore) (s : String) : rc_service_state_t :=
  match st.markers.find? (primaryMarkerP s) with
  | some m => m.2
  | none => rc_service_stopped

/-- Is the marker file for `(service, state)` present? -/
def hasMarker (st : RCStateStore) (s : String) (k : rc_service_state_t) : Bool :=
  decide ((s, k) ∈ st.markers)

/-- Modelled from the spec: `rc_service_state` checks whether a service is
in the given state; flags by marker presence, primary states through the
derived primary state (`stopped` when no primary marker exists), and
`crashed` is a passive daemon-liveness query outside the state store. -/
def rc_service_state (st : RCStateStore) (s : String) (k : rc_service_state_t) : Bool :=
  if isFlagState k then hasMarker st s k
  else if k = rc_service_crashed then false
  else decide (primaryStateOf st s = k)

/-- Marker creation: exclusive create, succeeding idempotently when the
marker already exists (§4.A). -/
def addMarkerFile (l : List (String × rc_service_state_t)) (s : String)
    (k : rc_service_state_t) : List (String × rc_service_state_t) :=
  if (s, k) ∈ l then l else l ++ [(s, k)]

/-- Should this marker of service `s` be removed by `mark(s, stopped)`?
All primary markers, plus the flags `failed`, `scheduled`, `was-inactive`. -/
def clearedOnStop (s : String) (m : String × rc_service_state_t) : Bool :=
  decide (m.1 = s) &&
    (isPrimaryState m.2 || decide (m.2 = rc_service_failed) ||
     decide (m.2 = rc_service_scheduled) || decide (m.2 = rc_service_wasinactive))

/-- Modelled from the spec (§4.C `mark`): for a primary state, atomically
remove the other primary markers of the service and create the new one;
for a flag, create the flag marker without touching the primary; for
`stopped`, remove all primary markers and the flags `failed`, `scheduled`
and `was-inactive`.  `crashed` is derived, not storable. -/
def rc_mark_service (st : RCStateStore) (s : String) (k : rc_service_state_t) :
    RCStateStore :=
  if k = rc_service_stopped then
    { st with markers := st.markers.filter (fun m => ! clearedOnStop s m) }
  else if isPrimaryState k then
    { st with markers :=
        addMarkerFile (st.markers.filter (fun m => ! primaryMarkerP s m)) s k }
  else if isFlagState k then
    { st with markers := addMarkerFile st.markers s k }
  else st

/-- Modelled from the spec: `rc_ls_dir` returns the contents of a
directory as a sorted list (C-locale sort, as `rc_strlist_addsortc`
inserts each entry at its sorted position).  The `options` bit
`RC_LS_INITD` filters against the init.d directory, which is global
filesystem state; the entry list passed here is already the directory's
raw contents, so only the sort is modelled. -/
def rc_ls_dir (entries : List String) (_options : Nat) : List String :=
  List.insertionSort strLe entries

/-- Modelled from the spec (§4.C `services_in_state`): enumerate by
listing the state directory; `stopped` has no marker directory and is
the set of known services with no primary marker present. -/
def rc_services_in_state (st : RCStateStore) (k : rc_service_state_t) : List String :=
  if k = rc_service_stopped then
    rc_ls_dir (st.services.filter
      (fun s => decide (primaryStateOf st s = rc_service_stopped))) 0
  else
    rc_ls_dir ((st.markers.filter (fun m => decide (m.2 = k))).map Prod.fst) 0

/-! ## Option bits from `rc.h` -/

def RC_LS_INITD : Nat := 0x01
def RC_DEP_TRACE : Nat := 0x01
def RC_DEP_STRICT : Nat := 0x02
def RC_DEP_START : Nat := 0x04
def RC_DEP_STOP : Nat := 0x08

/-! ## Runlevel registry and global system state

Modelled from the spec (§4.E, §6): a runlevel is a directory
`/etc/runlevels/<runlevel>` whose entries are symlinks to init scripts;
membership is link presence.  `initd` is the init.d directory listing,
`softlevel` the single-line current-runlevel file. -/

structure RCSystem where
  initd : List String
  runlevelDirs : List (String × List String)
  softlevel : String
  stateStore : RCStateStore
deriving DecidableEq

/-- The raw entries of a runlevel directory (empty when the runlevel
does not exist). -/
def runlevelEntries (sys : RCSystem) (rl : String) : List String :=
  match sys.runlevelDirs.find? (fun p => decide (p.1 = rl)) with
  | some p => p.2
  | none => []

/-- Modelled from the spec (§4.B): a service exists when its script is in
the init.d directory. -/
def rc_service_exists (sys : RCSystem) (s : String) : Bool :=
  decide (s ∈ sys.initd)

/-- Modelled from the spec (§4.E): the services of a runlevel are the
directory entries that resolve to a real script, as a sorted listing. -/
def rc_services_in_runlevel (sys : RCSystem) (rl : String) : List String :=
  rc_ls_dir ((runlevelEntries sys rl).filter (rc_service_exists sys)) RC_LS_INITD

/-- Modelled from the spec (§4.E `add`): create the membership symlink;
symlink creation fails with `EEXIST` when the entry is already present,
leaving the runlevel unchanged. -/
def rc_service_add (sys : RCSystem) (rl s : String) : RCSystem :=
  if s ∈ runlevelEntries sys rl then sys
  else { sys with runlevelDirs :=
    sys.runlevelDirs.map (fun p => if p.1 = rl then (p.1, p.2 ++ [s]) else p) }

/-- Modelled from the spec (§4.E `delete`, idempotent): remove the
membership symlink if present. -/
def rc_service_delete (sys : RCSystem) (rl s : String) : RCSystem :=
  { sys with runlevelDirs :=
    sys.runlevelDirs.map (fun p => if p.1 = rl then (p.1, p.2.erase s) else p) }

/-- Modelled from the spec: read the current runlevel from the softlevel
file. -/
def rc_get_runlevel (sys : RCSystem) : String := sys.softlevel

/-- Modelled from the spec (`rc.h`: "This just changes the stored runlevel
and does not start or stop any services"): write the softlevel file. -/
def rc_set_runlevel (sys : RCSystem) (rl : String) : RCSystem :=
  { sys with softlevel := rl }

/-- Modelled from the spec (§4.E `runlevels`): a sorted directory listing
of the runlevels root. -/
def rc_get_runlevels (sys : RCSystem) : List String :=
  rc_ls_dir (sys.runlevelDirs.map Prod.fst) 0

/-! ## Dependency tree (`rc_depinfo_t`, `rc_deptype_t`) -/

/-- A dependency type of a service: the relation name (`ineed`, `iuse`,
`iafter`, ...) and the peer services declared for it, as in `rc.h`. -/
structure rc_deptype_t where
  type : String
  services : List String
deriving DecidableEq

/-- A service's dependency record, as in `rc.h`. -/
structure rc_depinfo_t where
  service : String
  depends : List rc_deptype_t
deriving DecidableEq

/-- Find a service's dependency record in a loaded tree. -/
def rc_get_depinfo (deptree : List rc_depinfo_t) (service : String) :
    Option rc_depinfo_t :=
  deptree.find? (fun i => decide (i.service = service))

/-- Find a dependency type in a service's record. -/
def rc_get_deptype (depinfo : rc_depinfo_t) (type0 : String) : Option rc_deptype_t :=
  depinfo.depends.find? (fun d => decide (d.type = type0))

/-- The peers a service declares under one relation type. -/
def depsOfType (deptree : List rc_depinfo_t) (service type0 : String) : List String :=
  match rc_get_depinfo deptree service with
  | none => []
  | some i =>
    match rc_get_deptype i type0 with
    | none => []
    | some d => d.services

/-- Modelled from the spec (§4.G.3): the ordering DAG uses the edges from
`need` and `after` (virtuals resolved and `before` rewritten upstream by
§4.F, so the cached types are `ineed` and `iafter` over real names); each
listed peer must come earlier in the start order. -/
def directDeps (deptree : List rc_depinfo_t) (service : String) : List String :=
  depsOfType deptree service "ineed" ++ depsOfType deptree service "iafter"

/-! ## Ordering engine (`rc_order_services`) -/

/-- Remove duplicates keeping the first occurrence (§4.G.1). -/
def dedupFirstAux : List String → List String → List String
  | [], acc => acc.reverse
  | x :: xs, acc =>
    if x ∈ acc then dedupFirstAux xs acc else dedupFirstAux xs (x :: acc)

/-- Remove duplicates keeping the first occurrence (§4.G.1). -/
def dedupFirst (l : List String) : List String := dedupFirstAux l []

/-- Modelled from the spec (§4.G.1): the seed set is the services of
`sysinit`, `boot` and the target runlevel, duplicates removed preserving
first occurrence. -/
def orderSeeds (sys : RCSystem) (rl : String) : List String :=
  dedupFirst (rc_services_in_runlevel sys "sysinit" ++
    rc_services_in_runlevel sys "boot" ++ rc_services_in_runlevel sys rl)

/-- A node is ready when each of its dependencies is already emitted or
is not part of the sort at all (the DAG is restricted to the seed set). -/
def isReady (deps : String → List String) (emitted remaining : List String)
    (s : String) : Bool :=
  (deps s).all (fun d => decide (d ∈ emitted) || ! decide (d ∈ remaining))

/-- The lexicographically first element of a list, if any. -/
def lexFirst : List String → Option String
  | [] => none
  | x :: xs => some (xs.foldl (fun a b => if strLtb b a then b else a) x)

/-- Modelled from the spec (§4.G.4): stable topological sort.  Each round
emits the first (in seed order) ready node; when none is ready the seed
graph has a cycle, which is broken by emitting the lexicographically
first blocked node and recording its still-pending dependency edges as
dropped (the edges closing the cycle in the lexicographically later
direction).  Returns the emitted order and the dropped edges. -/
def topoLoop (deps : String → List String) :
    Nat → List String → List String → List (String × String) →
    List String × List (String × String)
  | 0, _, emitted, dropped => (emitted, dropped)
  | Nat.succ fuel, remaining, emitted, dropped =>
    match remaining.find? (isReady deps emitted remaining) with
    | some s => topoLoop deps fuel (remaining.erase s) (emitted ++ [s]) dropped
    | none =>
      match lexFirst remaining with
      | none => (emitted, dropped)
      | some s =>
        topoLoop deps fuel (remaining.erase s) (emitted ++ [s])
          (dropped ++ ((deps s).filter (fun d => decide (d ∈ remaining))).map
            (fun d => (d, s)))

/-- The start order and the dropped (cycle-closing) edges for a runlevel. -/
def rc_order_start (sys : RCSystem) (deptree : List rc_depinfo_t) (rl : String) :
    List String × List (String × String) :=
  topoLoop (directDeps deptree) (orderSeeds sys rl).length (orderSeeds sys rl) [] []

/-- Modelled from the spec (§4.G): the authoritative ordered service list
for a runlevel; the start sequence in start direction, and its reverse
when `RC_DEP_STOP` is set (§4.G.5: the reverse of the start sequence is
the valid stop sequence). -/
def rc_order_services (sys : RCSystem) (deptree : List rc_depinfo_t)
    (rl : String) (options : Nat) : List String :=
  if options &&& RC_DEP_STOP ≠ 0 then (rc_order_start sys deptree rl).1.reverse
  else (rc_order_start sys deptree rl).1

/-- The dependency edges dropped by cycle breaking: pairs `(b, a)` where
the constraint "`b` precedes `a`" was discarded to break a cycle. -/
def rc_order_dropped (sys : RCSystem) (deptree : List rc_depinfo_t)
    (rl : String) : List (String × String) :=
  (rc_order_start sys deptree rl).2

/-- `b` occurs strictly before `a` in the list `l`. -/
def precedesIn (b a : String) (l : List String) : Prop :=
  ∃ l₁ l₂ l₃, l = l₁ ++ b :: (l₂ ++ a :: l₃)

/-- A service not yet at the target state of a transition (§4.I filters
services already at the target out of a transition plan). -/
def notAtTarget (sys : RCSystem) (target : rc_service_state_t) (s : String) : Bool :=
  ! rc_service_state sys.stateStore s target

/-! ## Concrete fixtures -/

/-- A store knowing one service, with no marker files. -/
def stEmpty : RCStateStore := ⟨["a"], []⟩

/-- A store where `svc` is primary-stopped (no primary marker) and
carries the `failed` flag. -/
def stFlagged : RCStateStore := ⟨["svc"], [("svc", rc_service_failed)]⟩

/-- A system whose `default` runlevel already contains service `a`. -/
def sysMember : RCSystem :=
  ⟨["a"], [("default", ["a"])], "default", ⟨["a"], []⟩⟩

/-- A system whose `default` runlevel exists but is empty. -/
def sysVacant : RCSystem :=
  ⟨["a"], [("default", [])], "default", ⟨["a"], []⟩⟩

/-- A system with services `a` and `b` in runlevel `default`. -/
def sysPair : RCSystem :=
  ⟨["a", "b"], [("default", ["a", "b"])], "default", ⟨["a", "b"], []⟩⟩

/-- A dependency tree where `b` needs `a`. -/
def treeChain : List rc_depinfo_t := [⟨"b", [⟨"ineed", ["a"]⟩]⟩]

/-- A dependency tree with a need cycle: `a` needs `b` and `b` needs `a`. -/
def treeCycle : List rc_depinfo_t :=
  [⟨"a", [⟨"ineed", ["b"]⟩]⟩, ⟨"b", [⟨"ineed", ["a"]⟩]⟩]

example : rc_order_services sysPair treeChain "default" RC_DEP_START = ["a", "b"] := by
  decide
example : rc_order_services sysPair treeCycle "default" RC_DEP_START = ["a", "b"] := by
  decide
example : rc_order_dropped sysPair treeCycle "default" = [("b", "a")] := by decide
example : rc_services_in_state stFlagged rc_service_stopped = ["svc"] := by decide
example : rc_services_in_state stFlagged rc_service_failed = ["svc"] := by decide
example :
    rc_services_in_runlevel
      (rc_service_delete (rc_service_add sysMember "default" "a") "default" "a")
      "default" = [] := by decide

/-! ## Properties of the lexicographic comparison -/

theorem lexLtChars_asymm : ∀ x y, lexLtChars x y = true → lexLtChars y x = false := by
  intro x
  induction x with
  | nil =>
    intro y h
    cases y with
    | nil => simp [lexLtChars] at h
    | cons b bs => simp [lexLtChars]
  | cons a as ih =>
    intro y h
    cases y with
    | nil => simp [lexLtChars] at h
    | cons b bs =>
      simp only [lexLtChars] at h ⊢
      split_ifs at h ⊢ <;> first
        | rfl
        | omega
        | exact ih bs h

theorem lexLtChars_le_trans :
    ∀ x y z, lexLtChars y x = false → lexLtChars z y = false →
      lexLtChars z x = false := by
  intro x
  induction x with
  | nil =>
    intro y z _ _
    cases z with
    | nil => rfl
    | cons c cs => rfl
  | cons a as ih =>
    intro y z h₁ h₂
    cases y with
    | nil => simp [lexLtChars] at h₁
    | cons b bs =>
      cases z with
      | nil => simp [lexLtChars] at h₂
      | cons c cs =>
        simp only [lexLtChars] at h₁ h₂ ⊢
        split_ifs at h₁ h₂ ⊢ with h₃ h₄ h₅ h₆ h₇ h₈ <;> first
          | rfl
          | omega
          | exact ih bs cs h₁ h₂

theorem strLe_iff (a b : String) : strLe a b ↔ lexLtChars b.data a.data = false := by
  simp [strLe, strLeb, strLtb]

instance : IsTotal String strLe := by
  constructor
  intro a b
  by_cases h : lexLtChars a.data b.data = true
  · exact Or.inl ((strLe_iff a b).mpr (lexLtChars_asymm _ _ h))
  · exact Or.inr ((strLe_iff b a).mpr (Bool.not_eq_true _ ▸ (by simpa using h)))

instance : IsTrans String strLe := by
  constructor
  intro a b c h₁ h₂
  exact (strLe_iff a c).mpr
    (lexLtChars_le_trans a.data b.data c.data ((strLe_iff a b).mp h₁)
      ((strLe_iff b c).mp h₂))

/-- C10: directory-backed enumerations are sorted: `rc_ls_dir` returns its
entries as a sorted list, and consequently `rc_services_in_state` and
`rc_get_runlevels` return sorted name lists. -/
theorem rc_ls_dir_sorted (entries : List String) (opts : Nat)
    (st : RCStateStore) (k : rc_service_state_t) (sys : RCSystem) :
    List.Sorted strLe (rc_ls_dir entries opts) ∧
    List.Sorted strLe (rc_services_in_state st k) ∧
    List.Sorted strLe (rc_get_runlevels sys) := by
  refine ⟨List.sorted_insertionSort strLe entries, ?_, List.sorted_insertionSort strLe _⟩
  unfold rc_services_in_state
  split <;> exact List.sorted_insertionSort strLe _

/-- C9: `rc_set_runlevel` only updates the stored current-runlevel value:
a subsequent `rc_get_runlevel` returns the name just stored, while the
state store (hence every service's markers and states), the runlevel
directories and the init.d directory are unchanged, and no service is
started or stopped. -/
theorem rc_set_runlevel_frame (sys : RCSystem) (rl : String) :
    rc_get_runlevel (rc_set_runlevel sys rl) = rl ∧
    (rc_set_runlevel sys rl).stateStore = sys.stateStore ∧
    (∀ s k, rc_service_state (rc_set_runlevel sys rl).stateStore s k =
      rc_service_state sys.stateStore s k) ∧
    (rc_set_runlevel sys rl).runlevelDirs = sys.runlevelDirs ∧
    (rc_set_runlevel sys rl).initd = sys.initd :=
  ⟨rfl, rfl, fun _ _ => rfl, rfl, rfl⟩

/-! ## State-store lemmas -/

theorem primary_not_flag : ∀ k, isPrimaryState k = true → isFlagState k = false := by
  decide

theorem flag_not_primary : ∀ k, isFlagState k = true → isPrimaryState k = false := by
  decide

theorem primary_ne_crashed :
    ∀ k, isPrimaryState k = true → k ≠ rc_service_crashed := by decide

/-- C7: when a service has no primary state marker in the store, the state
query reports it as `stopped`. -/
theorem rc_service_state_stopped_default (st : RCStateStore) (s : String)
    (h : primaryMarkers st s = []) :
    rc_service_state st s rc_service_stopped = true := by
  have hfind : st.markers.find? (primaryMarkerP s) = none := by
    rw [List.find?_eq_none]
    intro m hm hp
    have hmem : m.2 ∈ primaryMarkers st s :=
      List.mem_map.mpr ⟨m, List.mem_filter.mpr ⟨hm, hp⟩, rfl⟩
    rw [h] at hmem
    exact absurd hmem (List.not_mem_nil _)
  simp [rc_service_state, isFlagState, primaryStateOf, hfind]

/-- Witness for C7 at a concrete store with no markers. -/
theorem rc_service_state_stopped_default_witness :
    primaryMarkers stEmpty "a" = [] ∧
    rc_service_state stEmpty "a" rc_service_stopped = true :=
  ⟨by decide, rc_service_state_stopped_default stEmpty "a" (by decide)⟩

/-- The marker-level invariant behind "exactly one primary state": since
`stopped` is represented by the absence of any primary marker, at most
one primary-state marker file exists per service. -/
def PrimaryUnique (st : RCStateStore) : Prop :=
  ∀ n, (primaryMarkers st n).length ≤ 1

theorem length_filter_filter_le {α : Type} (l : List α) (p q : α → Bool) :
    ((l.filter p).filter q).length ≤ (l.filter q).length :=
  ((List.filter_sublist l).filter q).length_le

theorem isPrimaryState_primaryStateOf (st : RCStateStore) (n : String) :
    isPrimaryState (primaryStateOf st n) = true := by
  unfold primaryStateOf
  cases hf : st.markers.find? (primaryMarkerP n) with
  | none => rfl
  | some m =>
    have hp := List.find?_some hf
    simp only [primaryMarkerP, Bool.and_eq_true] at hp
    exact hp.2

theorem exists_unique_primary (st : RCStateStore) (n : String) :
    ∃! p, isPrimaryState p = true ∧ rc_service_state st n p = true := by
  refine ⟨primaryStateOf st n, ⟨isPrimaryState_primaryStateOf st n, ?_⟩, ?_⟩
  · have hp := isPrimaryState_primaryStateOf st n
    have hf := primary_not_flag _ hp
    have hc := primary_ne_crashed _ hp
    simp [rc_service_state, hf, hc]
  · intro q ⟨hq, hqs⟩
    have hfq := primary_not_flag _ hq
    have hcq := primary_ne_crashed _ hq
    simp [rc_service_state, hfq, hcq] at hqs
    exact hqs.symm

theorem primaryMarkers_addMarkerFile_flag
    (l : List (String × rc_service_state_t)) (s : String)
    (k : rc_service_state_t) (n : String) (hk : isFlagState k = true) :
    ((addMarkerFile l s k).filter (primaryMarkerP n)).map Prod.snd =
      (l.filter (primaryMarkerP n)).map Prod.snd := by
  unfold addMarkerFile
  split
  · rfl
  · have hp : primaryMarkerP n (s, k) = false := by
      simp [primaryMarkerP, flag_not_primary k hk]
    simp [List.filter_append, hp]

theorem primaryMarkers_mark_primary_self (st : RCStateStore) (s : String)
    (k : rc_service_state_t) (hk : isPrimaryState k = true)
    (hks : k ≠ rc_service_stopped) :
    primaryMarkers (rc_mark_service st s k) s = [k] := by
  have hnm : (s, k) ∉ st.markers.filter (fun m => ! primaryMarkerP s m) := by
    intro hmem
    have := (List.mem_filter.mp hmem).2
    simp [primaryMarkerP, hk] at this
  unfold rc_mark_service
  rw [if_neg hks, if_pos hk]
  unfold primaryMarkers addMarkerFile
  rw [if_neg hnm]
  have h₁ : primaryMarkerP s (s, k) = true := by simp [primaryMarkerP, hk]
  have h₂ : (st.markers.filter (fun m => ! primaryMarkerP s m)).filter
      (primaryMarkerP s) = [] := by
    rw [List.filter_filter]
    refine List.filter_eq_nil_iff.mpr ?_
    intro m _
    cases primaryMarkerP s m <;> simp
  simp [List.filter_append, h₁, h₂]

theorem primaryMarkers_mark_primary_other (st : RCStateStore) (s : String)
    (k : rc_service_state_t) (n : String) (hk : isPrimaryState k = true)
    (hks : k ≠ rc_service_stopped) (hn : n ≠ s) :
    primaryMarkers (rc_mark_service st s k) n = primaryMarkers st n := by
  unfold rc_mark_service
  rw [if_neg hks, if_pos hk]
  unfold primaryMarkers addMarkerFile
  have hp : primaryMarkerP n (s, k) = false := by
    simp [primaryMarkerP]
    intro h
    exact absurd h.symm hn
  have h₂ : (st.markers.filter (fun m => ! primaryMarkerP s m)).filter
      (primaryMarkerP n) = st.markers.filter (primaryMarkerP n) := by
    rw [List.filter_filter]
    refine List.filter_congr ?_
    intro m _
    cases hpn : primaryMarkerP n m
    · simp
    · have hm1 : m.1 = n := by
        have := hpn
        simp only [primaryMarkerP, Bool.and_eq_true, decide_eq_true_eq] at this
        exact this.1
      have hps : primaryMarkerP s m = false := by
        simp [primaryMarkerP, hm1]
        intro h
        exact absurd h hn
      simp [hps]
  split
  · rw [h₂]
  · rw [List.filter_append, h₂]
    simp [hp]

/-- C2: the state store keeps exactly one primary state per service:
`rc_mark_service` preserves the at-most-one-primary-marker invariant
(with `stopped` encoded by marker absence), and under it every service
has exactly one primary state among stopped/started/starting/stopping/
inactive at any instant. -/
theorem rc_mark_service_primary_state_unique (st : RCStateStore) (s : String)
    (k : rc_service_state_t) (h : PrimaryUnique st) :
    PrimaryUnique (rc_mark_service st s k) ∧
    ∀ n, ∃! p, isPrimaryState p = true ∧
      rc_service_state (rc_mark_service st s k) n p = true := by
  refine ⟨?_, fun n => exists_unique_primary _ n⟩
  intro n
  by_cases hstop : k = rc_service_stopped
  · subst hstop
    unfold rc_mark_service
    rw [if_pos rfl]
    unfold primaryMarkers
    simp only [List.length_map]
    calc ((st.markers.filter (fun m => ! clearedOnStop s m)).filter
            (primaryMarkerP n)).length
        ≤ (st.markers.filter (primaryMarkerP n)).length :=
          length_filter_filter_le _ _ _
      _ ≤ 1 := by
          have := h n
          simpa [primaryMarkers] using this
  · by_cases hprim : isPrimaryState k = true
    · by_cases hn : n = s
      · subst hn
        rw [primaryMarkers_mark_primary_self st n k hprim hstop]
        simp
      · rw [primaryMarkers_mark_primary_other st s k n hprim hstop hn]
        exact h n
    · by_cases hflag : isFlagState k = true
      · have hp : isPrimaryState k = false := by
          cases hpk : isPrimaryState k
          · rfl
          · exact absurd hpk hprim
        unfold rc_mark_service
        rw [if_neg hstop, if_neg (by simp [hp]), if_pos hflag]
        show (((addMarkerFile st.markers s k).filter (primaryMarkerP n)).map
            Prod.snd).length ≤ 1
        rw [primaryMarkers_addMarkerFile_flag st.markers s k n hflag]
        exact h n
      · have hp : isPrimaryState k = false := by
          cases hpk : isPrimaryState k
          · rfl
          · exact absurd hpk hprim
        have hf : isFlagState k = false := by
          cases hfk : isFlagState k
          · rfl
          · exact absurd hfk hflag
        unfold rc_mark_service
        rw [if_neg hstop, if_neg (by simp [hp]), if_neg (by simp [hf])]
        exact h n

/-- Witness for C2: marking a service started in an empty, trivially
well-formed store. -/
theorem rc_mark_service_primary_state_unique_witness :
    PrimaryUnique stEmpty ∧
    (PrimaryUnique (rc_mark_service stEmpty "a" rc_service_started) ∧
     ∀ n, ∃! p, isPrimaryState p = true ∧
       rc_service_state (rc_mark_service stEmpty "a" rc_service_started) n p =
         true) := by
  have h : PrimaryUnique stEmpty := by
    intro n
    simp [primaryMarkers, stEmpty]
  exact ⟨h, rc_mark_service_primary_state_unique stEmpty "a" rc_service_started h⟩

/-! ## Idempotence of marking -/

theorem filter_self_idem {α : Type} (p : α → Bool) (l : List α) :
    (l.filter p).filter p = l.filter p := by
  rw [List.filter_filter]
  refine List.filter_congr ?_
  intro a _
  cases p a <;> simp

theorem mem_addMarkerFile (l : List (String × rc_service_state_t)) (s : String)
    (k : rc_service_state_t) : (s, k) ∈ addMarkerFile l s k := by
  unfold addMarkerFile
  split
  · assumption
  · exact List.mem_append_right _ (List.mem_singleton.mpr rfl)

theorem addMarkerFile_of_mem (l : List (String × rc_service_state_t))
    (s : String) (k : rc_service_state_t) (h : (s, k) ∈ l) :
    addMarkerFile l s k = l := by
  unfold addMarkerFile
  exact if_pos h

theorem not_mem_primary_cleared (st : RCStateStore) (s : String)
    (k : rc_service_state_t) (hk : isPrimaryState k = true) :
    (s, k) ∉ st.markers.filter (fun m => ! primaryMarkerP s m) := by
  intro hmem
  have := (List.mem_filter.mp hmem).2
  simp [primaryMarkerP, hk] at this

theorem mark_stopped_markers (st : RCStateStore) (s : String) :
    rc_mark_service st s rc_service_stopped =
      { st with markers := st.markers.filter (fun m => ! clearedOnStop s m) } := by
  unfold rc_mark_service
  rw [if_pos rfl]

theorem mark_primary_markers (st : RCStateStore) (s : String)
    (k : rc_service_state_t) (hk : isPrimaryState k = true)
    (hks : k ≠ rc_service_stopped) :
    rc_mark_service st s k =
      { st with markers :=
          (st.markers.filter (fun m => ! primaryMarkerP s m)) ++ [(s, k)] } := by
  unfold rc_mark_service
  rw [if_neg hks, if_pos hk]
  congr 1
  unfold addMarkerFile
  exact if_neg (not_mem_primary_cleared st s k hk)

theorem mark_flag_markers (st : RCStateStore) (s : String)
    (k : rc_service_state_t) (hk : isFlagState k = true) :
    rc_mark_service st s k = { st with markers := addMarkerFile st.markers s k } := by
  have hks : k ≠ rc_service_stopped := by
    intro e
    subst e
    simp [isFlagState] at hk
  have hp : isPrimaryState k = false := flag_not_primary k hk
  unfold rc_mark_service
  rw [if_neg hks, if_neg (by simp [hp]), if_pos hk]

theorem mark_other_markers (st : RCStateStore) (s : String)
    (k : rc_service_state_t) (hp : isPrimaryState k = false)
    (hf : isFlagState k = false) (hks : k ≠ rc_service_stopped) :
    rc_mark_service st s k = st := by
  unfold rc_mark_service
  rw [if_neg hks, if_neg (by simp [hp]), if_neg (by simp [hf])]

/-- C5: marking a service into a state is idempotent: marking twice leaves
exactly the same store contents (primary marker and flags) as marking
once. -/
theorem rc_mark_service_idempotent (st : RCStateStore) (s : String)
    (k : rc_service_state_t) :
    rc_mark_service (rc_mark_service st s k) s k = rc_mark_service st s k := by
  by_cases hstop : k = rc_service_stopped
  · subst hstop
    rw [mark_stopped_markers st s, mark_stopped_markers]
    congr 1
    exact filter_self_idem _ _
  · by_cases hprim : isPrimaryState k = true
    · rw [mark_primary_markers st s k hprim hstop, mark_primary_markers _ s k hprim hstop]
      congr 1
      show ((st.markers.filter (fun m => ! primaryMarkerP s m) ++ [(s, k)]).filter
          (fun m => ! primaryMarkerP s m)) ++ [(s, k)] =
        st.markers.filter (fun m => ! primaryMarkerP s m) ++ [(s, k)]
      rw [List.filter_append, filter_self_idem]
      have hpk : primaryMarkerP s (s, k) = true := by simp [primaryMarkerP, hprim]
      simp [hpk]
    · by_cases hflag : isFlagState k = true
      · rw [mark_flag_markers st s k hflag, mark_flag_markers _ s k hflag]
        congr 1
        exact addMarkerFile_of_mem _ _ _ (mem_addMarkerFile st.markers s k)
      · have hp : isPrimaryState k = false := by
          cases hpk : isPrimaryState k
          · rfl
          · exact absurd hpk hprim
        have hf : isFlagState k = false := by
          cases hfk : isFlagState k
          · rfl
          · exact absurd hfk hflag
        rw [mark_other_markers st s k hp hf hstop]
        exact mark_other_markers st s k hp hf hstop

/-! ## Enumeration by state -/

/-- C8: flags coexist with the primary state in enumeration: a service
whose primary state is `stopped` and which carries the `failed` flag is
listed by both `rc_services_in_state stopped` and
`rc_services_in_state failed`. -/
theorem rc_services_in_state_stopped_and_failed (st : RCStateStore) (s : String)
    (hs : s ∈ st.services)
    (hstop : rc_service_state st s rc_service_stopped = true)
    (hfail : rc_service_state st s rc_service_failed = true) :
    s ∈ rc_services_in_state st rc_service_stopped ∧
    s ∈ rc_services_in_state st rc_service_failed := by
  constructor
  · unfold rc_services_in_state
    rw [if_pos rfl]
    unfold rc_ls_dir
    refine ((List.perm_insertionSort strLe _).mem_iff).mpr ?_
    rw [List.mem_filter]
    refine ⟨hs, ?_⟩
    have hps : primaryStateOf st s = rc_service_stopped := by
      simpa [rc_service_state, isFlagState] using hstop
    simpa using hps
  · unfold rc_services_in_state
    rw [if_neg (by decide : rc_service_failed ≠ rc_service_stopped)]
    unfold rc_ls_dir
    refine ((List.perm_insertionSort strLe _).mem_iff).mpr ?_
    have hm : (s, rc_service_failed) ∈ st.markers := by
      simpa [rc_service_state, isFlagState, hasMarker] using hfail
    exact List.mem_map.mpr
      ⟨(s, rc_service_failed), List.mem_filter.mpr ⟨hm, by simp⟩, rfl⟩

/-- Witness for C8: `svc` is primary-stopped with the `failed` flag in
`stFlagged`, and is enumerated under both states. -/
theorem rc_services_in_state_stopped_and_failed_witness :
    ("svc" ∈ stFlagged.services ∧
     rc_service_state stFlagged "svc" rc_service_stopped = true ∧
     rc_service_state stFlagged "svc" rc_service_failed = true) ∧
    ("svc" ∈ rc_services_in_state stFlagged rc_service_stopped ∧
     "svc" ∈ rc_services_in_state stFlagged rc_service_failed) :=
  ⟨⟨by decide, by decide, by decide⟩,
   rc_services_in_state_stopped_and_failed stFlagged "svc" (by decide) (by decide)
     (by decide)⟩

/-! ## Runlevel membership round-trip -/

theorem find?_map_runlevelUpdate (dirs : List (String × List String))
    (rl : String) (g : List String → List String) :
    (dirs.map (fun p => if p.1 = rl then (p.1, g p.2) else p)).find?
        (fun p => decide (p.1 = rl)) =
      (dirs.find? (fun p => decide (p.1 = rl))).map (fun p => (p.1, g p.2)) := by
  induction dirs with
  | nil => rfl
  | cons d ds ih =>
    by_cases hd : d.1 = rl
    · simp [List.find?_cons, hd, List.map_cons]
    · simp [List.find?_cons, hd, List.map_cons, ih]

theorem runlevelEntries_add_delete (sys : RCSystem) (rl s : String)
    (h : s ∉ runlevelEntries sys rl) :
    runlevelEntries (rc_service_delete (rc_service_add sys rl s) rl s) rl =
      runlevelEntries sys rl := by
  unfold rc_service_add
  rw [if_neg h]
  unfold rc_service_delete runlevelEntries
  dsimp only
  rw [find?_map_runlevelUpdate _ rl (fun l => l.erase s),
    find?_map_runlevelUpdate _ rl (fun l => l ++ [s])]
  cases hf : sys.runlevelDirs.find? (fun p => decide (p.1 = rl)) with
  | none => rfl
  | some p =>
    have hnp : s ∉ p.2 := by
      intro hmem
      apply h
      unfold runlevelEntries
      rw [hf]
      exact hmem
    simp [List.erase_append_right _ hnp]

theorem initd_add_delete (sys : RCSystem) (rl s : String) :
    (rc_service_delete (rc_service_add sys rl s) rl s).initd = sys.initd := by
  unfold rc_service_add rc_service_delete
  split <;> rfl

/-- C6 counterexample: in `sysMember` the service `a` is already in
runlevel `default`; after `add` (which fails with `EEXIST`, changing
nothing) followed by `delete`, the membership list is `[]`, not the
original `["a"]` — the claim fails as universally stated. -/
theorem rc_add_delete_not_roundtrip :
    rc_services_in_runlevel
        (rc_service_delete (rc_service_add sysMember "default" "a") "default" "a")
        "default" ≠ rc_services_in_runlevel sysMember "default" := by decide

/-- C6 (amended): adding a service to a runlevel and then deleting it
restores the membership exactly, provided the service was not already in
the runlevel. -/
theorem rc_add_delete_roundtrip (sys : RCSystem) (rl s : String)
    (h : s ∉ runlevelEntries sys rl) :
    rc_services_in_runlevel (rc_service_delete (rc_service_add sys rl s) rl s) rl =
      rc_services_in_runlevel sys rl := by
  have he := runlevelEntries_add_delete sys rl s h
  have hi := initd_add_delete sys rl s
  have hex : rc_service_exists (rc_service_delete (rc_service_add sys rl s) rl s) =
      rc_service_exists sys := by
    funext t
    unfold rc_service_exists
    rw [hi]
  unfold rc_services_in_runlevel
  rw [he, hex]

/-- Witness for C6 (amended): in `sysVacant`, runlevel `default` is empty,
and the add/delete round trip restores the empty membership. -/
theorem rc_add_delete_roundtrip_witness :
    "a" ∉ runlevelEntries sysVacant "default" ∧
    rc_services_in_runlevel
        (rc_service_delete (rc_service_add sysVacant "default" "a") "default" "a")
        "default" = rc_services_in_runlevel sysVacant "default" :=
  ⟨by decide, rc_add_delete_roundtrip sysVacant "default" "a" (by decide)⟩

/-! ## Ordering: stop direction and cycles -/

/-- C3: for every runlevel and dependency tree the stop order is exactly
the reverse of the start order; in particular the two sides still agree
after discarding services already at the stop target, the only difference
the claim allows. -/
theorem rc_order_stop_reverse_start (sys : RCSystem)
    (deptree : List rc_depinfo_t) (rl : String) :
    rc_order_services sys deptree rl RC_DEP_STOP =
      (rc_order_services sys deptree rl RC_DEP_START).reverse ∧
    (rc_order_services sys deptree rl RC_DEP_STOP).filter
        (notAtTarget sys rc_service_stopped) =
      ((rc_order_services sys deptree rl RC_DEP_START).reverse).filter
        (notAtTarget sys rc_service_stopped) := by
  have h : rc_order_services sys deptree rl RC_DEP_STOP =
      (rc_order_services sys deptree rl RC_DEP_START).reverse := by
    unfold rc_order_services
    rw [if_pos (by decide : RC_DEP_STOP &&& RC_DEP_STOP ≠ 0),
      if_neg (by decide : ¬ RC_DEP_START &&& RC_DEP_STOP ≠ 0)]
  exact ⟨h, by rw [h]⟩

/-- C4: on the need cycle `a needs b`, `b needs a` (both in the
runlevel), ordering does not fail: it returns the complete ordered list
`[a, b]`, having removed exactly the edge closing the cycle in the
lexicographically later direction — the constraint `(b, a)` that `b`
precede `a`. -/
theorem rc_order_need_cycle :
    rc_order_services sysPair treeCycle "default" RC_DEP_START = ["a", "b"] ∧
    rc_order_dropped sysPair treeCycle "default" = [("b", "a")] :=
  ⟨by decide, by decide⟩

/-! ## The start order respects the resolved DAG -/

theorem precedesIn_append (b a : String) (l l' : List String)
    (h : precedesIn b a l) : precedesIn b a (l ++ l') := by
  obtain ⟨l₁, l₂, l₃, rfl⟩ := h
  exact ⟨l₁, l₂, l₃ ++ l', by simp⟩

theorem precedesIn_mem_append (b s : String) (l : List String) (h : b ∈ l) :
    precedesIn b s (l ++ [s]) := by
  obtain ⟨l₁, l₂, rfl⟩ := List.append_of_mem h
  exact ⟨l₁, l₂, [], by simp⟩

theorem foldl_lexMin_mem (x : String) (xs : List String) :
    xs.foldl (fun a b => if strLtb b a then b else a) x ∈ x :: xs := by
  induction xs generalizing x with
  | nil => simp
  | cons y ys ih =>
    simp only [List.foldl_cons]
    have h := ih (if strLtb y x then y else x)
    rcases List.mem_cons.mp h with h' | h'
    · rw [h']
      split
      · exact List.mem_cons_of_mem _ (List.mem_cons_self _ _)
      · exact List.mem_cons_self _ _
    · exact List.mem_cons_of_mem _ (List.mem_cons_of_mem _ h')

theorem lexFirst_mem {l : List String} {s : String} (h : lexFirst l = some s) :
    s ∈ l := by
  cases l with
  | nil => simp [lexFirst] at h
  | cons x xs =>
    simp only [lexFirst, Option.some.injEq] at h
    exact h ▸ foldl_lexMin_mem x xs

theorem topoLoop_spec (deps : String → List String) :
    ∀ (fuel : Nat) (remaining emitted : List String)
      (dropped : List (String × String)),
      remaining.length ≤ fuel →
      (∀ a ∈ emitted, ∀ b ∈ deps a, b ∈ emitted ++ remaining →
        (b, a) ∈ dropped ∨ precedesIn b a emitted) →
      (topoLoop deps fuel remaining emitted dropped).1.Perm (emitted ++ remaining) ∧
      (∀ e ∈ dropped, e ∈ (topoLoop deps fuel remaining emitted dropped).2) ∧
      (∀ a ∈ (topoLoop deps fuel remaining emitted dropped).1, ∀ b ∈ deps a,
        b ∈ (topoLoop deps fuel remaining emitted dropped).1 →
        (b, a) ∈ (topoLoop deps fuel remaining emitted dropped).2 ∨
        precedesIn b a (topoLoop deps fuel remaining emitted dropped).1) := by
  intro fuel
  induction fuel with
  | zero =>
    intro remaining emitted dropped hlen hinv
    have hrem : remaining = [] := List.length_eq_zero.mp (Nat.le_zero.mp hlen)
    subst hrem
    simp only [topoLoop]
    exact ⟨by simp, fun e he => he,
      fun a ha b hb hbm => hinv a ha b hb (by simpa using hbm)⟩
  | succ fuel ih =>
    intro remaining emitted dropped hlen hinv
    cases hfind : remaining.find? (isReady deps emitted remaining) with
    | some s =>
      have hsmem : s ∈ remaining := List.mem_of_find?_eq_some hfind
      have hready : isReady deps emitted remaining s = true := List.find?_some hfind
      have hstep : topoLoop deps (fuel + 1) remaining emitted dropped =
          topoLoop deps fuel (remaining.erase s) (emitted ++ [s]) dropped := by
        simp only [topoLoop, hfind]
      rw [hstep]
      have hperm : ((emitted ++ [s]) ++ remaining.erase s).Perm
          (emitted ++ remaining) := by
        have h1 : remaining.Perm (s :: remaining.erase s) :=
          List.perm_cons_erase hsmem
        have h2 : (emitted ++ [s]) ++ remaining.erase s =
            emitted ++ (s :: remaining.erase s) := by simp
        rw [h2]
        exact List.Perm.append_left emitted h1.symm
      have hlen' : (remaining.erase s).length ≤ fuel := by
        have := List.length_erase_of_mem hsmem
        omega
      have hinv' : ∀ a ∈ emitted ++ [s], ∀ b ∈ deps a,
          b ∈ (emitted ++ [s]) ++ remaining.erase s →
          (b, a) ∈ dropped ∨ precedesIn b a (emitted ++ [s]) := by
        intro a ha b hb hbmem
        have hbold : b ∈ emitted ++ remaining := hperm.mem_iff.mp hbmem
        rcases List.mem_append.mp ha with haE | haS
        · rcases hinv a haE b hb hbold with h | h
          · exact Or.inl h
          · exact Or.inr (precedesIn_append _ _ _ _ h)
        · have haS' : a = s := by simpa using haS
          subst haS'
          have hready' : ∀ x ∈ deps a, x ∈ emitted ∨ x ∉ remaining := by
            simpa [isReady] using hready
          rcases hready' b hb with hbe | hbnr
          · exact Or.inr (precedesIn_mem_append _ _ _ hbe)
          · rcases List.mem_append.mp hbold with hmem | hmem
            · exact Or.inr (precedesIn_mem_append _ _ _ hmem)
            · exact absurd hmem hbnr
      obtain ⟨P, D, R⟩ := ih (remaining.erase s) (emitted ++ [s]) dropped hlen' hinv'
      exact ⟨P.trans hperm, D, R⟩
    | none =>
      cases hlex : lexFirst remaining with
      | none =>
        have hrem : remaining = [] := by
          cases remaining with
          | nil => rfl
          | cons x xs => simp [lexFirst] at hlex
        subst hrem
        have hstep : topoLoop deps (fuel + 1) [] emitted dropped =
            (emitted, dropped) := by
          simp only [topoLoop, hfind, hlex]
        rw [hstep]
        exact ⟨by simp, fun e he => he,
          fun a ha b hb hbm => hinv a ha b hb (by simpa using hbm)⟩
      | some s =>
        have hsmem : s ∈ remaining := lexFirst_mem hlex
        have hstep : topoLoop deps (fuel + 1) remaining emitted dropped =
            topoLoop deps fuel (remaining.erase s) (emitted ++ [s])
              (dropped ++ ((deps s).filter (fun d => decide (d ∈ remaining))).map
                (fun d => (d, s))) := by
          simp only [topoLoop, hfind, hlex]
        rw [hstep]
        have hperm : ((emitted ++ [s]) ++ remaining.erase s).Perm
            (emitted ++ remaining) := by
          have h1 : remaining.Perm (s :: remaining.erase s) :=
            List.perm_cons_erase hsmem
          have h2 : (emitted ++ [s]) ++ remaining.erase s =
              emitted ++ (s :: remaining.erase s) := by simp
          rw [h2]
          exact List.Perm.append_left emitted h1.symm
        have hlen' : (remaining.erase s).length ≤ fuel := by
          have := List.length_erase_of_mem hsmem
          omega
        have hinv' : ∀ a ∈ emitted ++ [s], ∀ b ∈ deps a,
            b ∈ (emitted ++ [s]) ++ remaining.erase s →
            (b, a) ∈ dropped ++ ((deps s).filter
              (fun d => decide (d ∈ remaining))).map (fun d => (d, s)) ∨
            precedesIn b a (emitted ++ [s]) := by
          intro a ha b hb hbmem
          have hbold : b ∈ emitted ++ remaining := hperm.mem_iff.mp hbmem
          rcases List.mem_append.mp ha with haE | haS
          · rcases hinv a haE b hb hbold with h | h
            · exact Or.inl (List.mem_append_left _ h)
            · exact Or.inr (precedesIn_append _ _ _ _ h)
          · have haS' : a = s := by simpa using haS
            subst haS'
            rcases List.mem_append.mp hbold with hmem | hmem
            · exact Or.inr (precedesIn_mem_append _ _ _ hmem)
            · refine Or.inl (List.mem_append_right _ ?_)
              exact List.mem_map.mpr
                ⟨b, List.mem_filter.mpr ⟨hb, by simpa using hmem⟩, rfl⟩
        obtain ⟨P, D, R⟩ := ih (remaining.erase s) (emitted ++ [s]) _ hlen' hinv'
        exact ⟨P.trans hperm, fun e he => D e (List.mem_append_left _ he), R⟩

/-- C1: the start order respects the resolved dependency DAG: whenever the
resolved tree records that service `a` needs or comes after service `b`,
with both in the computed order and the edge not among those dropped to
break a cycle, `b` precedes `a` in the start order returned by
`rc_order_services`. -/
theorem rc_order_services_respects_deps (sys : RCSystem)
    (deptree : List rc_depinfo_t) (rl : String) (a b : String)
    (ha : a ∈ rc_order_services sys deptree rl RC_DEP_START)
    (hdep : b ∈ directDeps deptree a)
    (hb : b ∈ rc_order_services sys deptree rl RC_DEP_START)
    (hkept : (b, a) ∉ rc_order_dropped sys deptree rl) :
    precedesIn b a (rc_order_services sys deptree rl RC_DEP_START) := by
  have hstart : rc_order_services sys deptree rl RC_DEP_START =
      (rc_order_start sys deptree rl).1 := by
    unfold rc_order_services
    rw [if_neg (by decide : ¬ RC_DEP_START &&& RC_DEP_STOP ≠ 0)]
  rw [hstart] at ha hb ⊢
  obtain ⟨P, D, R⟩ := topoLoop_spec (directDeps deptree)
    (orderSeeds sys rl).length (orderSeeds sys rl) [] [] (le_refl _)
    (fun a ha => absurd ha (List.not_mem_nil a))
  rcases R a ha b hdep hb with h | h
  · exact absurd h hkept
  · exact h

/-- Witness for C1: in `treeChain` (`b` needs `a`) the computed start
order for `default` is `["a", "b"]`, and `a` precedes `b`. -/
theorem rc_order_services_respects_deps_witness :
    ("b" ∈ rc_order_services sysPair treeChain "default" RC_DEP_START ∧
     "a" ∈ directDeps treeChain "b" ∧
     "a" ∈ rc_order_services sysPair treeChain "default" RC_DEP_START ∧
     ("a", "b") ∉ rc_order_dropped sysPair treeChain "default") ∧
    precedesIn "a" "b" (rc_order_services sysPair treeChain "default" RC_DEP_START) :=
  ⟨⟨by decide, by decide, by decide, by decide⟩,
   rc_order_services_respects_deps sysPair treeChain "default" "b" "a"
     (by decide) (by decide) (by decide) (by decide)⟩
